import Mathlib

/-!
Shallow embedding of the CPA rules engine (`src/cpa-engine.js`):
the configuration codec, the tiered configuration cache
(`getConfiguration`), the validation pipeline (`validateCPA`) and the
fraud heuristics (`detectFraud`).

Modelling conventions:
* JavaScript runtime values are modelled by `CValue`, a scalar value
  universe (finite numbers as rationals, `NaN`, booleans, strings and
  `null`).  Structured JSON values (arrays/objects) are outside the
  model: no configuration key used by the validation pipeline carries
  one.
* Timestamps (`Date.now()`, `getTime()`) are integers in milliseconds.
* `parseInt` / `parseFloat` / `Number(...)` are modelled on decimal
  literals with an optional sign and fraction; the exotic forms
  (hexadecimal `0x` prefix, exponent notation, `Infinity`) are not
  modelled — no claim depends on them.
* Exceptions are modelled with `Except` at the point where the source
  catches them; a function that the source makes total by catching
  internally is modelled as a total function.
-/

namespace CPAEngine

/-- JavaScript scalar runtime values as they occur in the engine:
finite numbers (as exact rationals), `NaN`, booleans, strings, `null`. -/
inductive CValue where
  | num (q : ℚ)
  | nan
  | bool (b : Bool)
  | str (s : String)
  | null
deriving DecidableEq, Repr

/-- The character for a decimal digit `d < 10`. -/
def digitChar (d : ℕ) : Char := Char.ofNat (48 + d)

/-- The decimal value of a digit character. -/
def digitVal (c : Char) : ℕ := c.toNat - 48

/-- Decimal digit string of a natural number (no sign, no leading zeros
except for `0` itself). -/
def printNat (n : ℕ) : List Char :=
  if n = 0 then ['0'] else ((Nat.digits 10 n).map digitChar).reverse

/-- Value of a big-endian list of decimal digit characters; characters
are read via `digitVal`. -/
def parseNat (l : List Char) : ℕ :=
  Nat.ofDigits 10 ((l.map digitVal).reverse)

/-- Leading-whitespace stripping (space characters model JS whitespace). -/
def skipSpaces (l : List Char) : List Char := l.dropWhile (· = ' ')

/-- Split an optional leading sign; returns (isNegative, rest). -/
def splitSign (l : List Char) : Bool × List Char :=
  match l with
  | '-' :: r => (true, r)
  | '+' :: r => (false, r)
  | _ => (false, l)

/-- `parseInt(s)` (radix 10): skip whitespace, optional sign, longest
digit prefix; `NaN` when no digit is found. -/
def parseIntJS (s : String) : CValue :=
  let sl := splitSign (skipSpaces s.toList)
  let ds := sl.2.takeWhile Char.isDigit
  if ds.isEmpty then .nan
  else .num ((if sl.1 then -1 else 1) * (parseNat ds : ℚ))

/-- `parseFloat(s)`: skip whitespace, optional sign, longest decimal
literal prefix (integer digits, optional `.` and fraction digits);
`NaN` when no digit is found at all. -/
def parseFloatJS (s : String) : CValue :=
  let sl := splitSign (skipSpaces s.toList)
  let ds := sl.2.takeWhile Char.isDigit
  let rest := sl.2.dropWhile Char.isDigit
  let fs := match rest with
    | '.' :: r => r.takeWhile Char.isDigit
    | _ => []
  if ds.isEmpty && fs.isEmpty then .nan
  else .num ((if sl.1 then -1 else 1) *
    ((parseNat ds : ℚ) + (parseNat fs : ℚ) / 10 ^ fs.length))

/-- JS `ToNumber` on strings (used by `>=`/`<=` coercion): trimmed
empty string is `0`; otherwise the whole string must be a signed
decimal literal, else `NaN` (`none`). -/
def strToNumber (s : String) : Option ℚ :=
  match s.trim.toList with
  | [] => some 0
  | c :: r =>
    let sl := splitSign (c :: r)
    let ds := sl.2.takeWhile Char.isDigit
    let rest := sl.2.dropWhile Char.isDigit
    match rest with
    | [] =>
      if ds.isEmpty then none
      else some ((if sl.1 then -1 else 1) * (parseNat ds : ℚ))
    | '.' :: fr =>
      let fs := fr.takeWhile Char.isDigit
      if ¬ (fr.dropWhile Char.isDigit).isEmpty then none
      else if ds.isEmpty && fs.isEmpty then none
      else some ((if sl.1 then -1 else 1) *
        ((parseNat ds : ℚ) + (parseNat fs : ℚ) / 10 ^ fs.length))
    | _ => none

/-- JSON number grammar (sign, integer part without leading zeros,
optional fraction; exponents not modelled). -/
def jsonNumber (cs : List Char) : Option ℚ :=
  let neg := cs.head? == some '-'
  let l := if neg then cs.tail else cs
  let ds := l.takeWhile Char.isDigit
  let rest := l.dropWhile Char.isDigit
  if ds.isEmpty then none
  else if ds.length > 1 && ds.head? == some '0' then none
  else if rest.isEmpty then some ((if neg then -1 else 1) * (parseNat ds : ℚ))
  else if rest.head? == some '.' then
    let fr := rest.tail
    if fr.isEmpty || !(fr.all Char.isDigit) then none
    else some ((if neg then -1 else 1) *
      ((parseNat ds : ℚ) + (parseNat fr : ℚ) / 10 ^ fr.length))
  else none

/-- `JSON.parse` on the scalar JSON grammar: literals `true` / `false`
/ `null`, escape-free string literals, and numbers.  `none` models a
thrown `SyntaxError`. -/
def jsonParse (s : String) : Option CValue :=
  let cs := s.toList
  if cs = "true".toList then some (.bool true)
  else if cs = "false".toList then some (.bool false)
  else if cs = "null".toList then some CValue.null
  else if cs.head? == some '"' then
    let mid := cs.tail.dropLast
    if cs.length ≥ 2 && cs.getLast? == some '"' &&
        mid.all (fun c => !(c == '"') && !(c == '\\')) then
      some (.str (String.mk mid))
    else none
  else (jsonNumber cs).map .num

/-- The `switch (config.data_type)` conversion of the raw origin string
(`cpa-engine.js` lines 124-137).  A failing `JSON.parse` throws, which
is modelled by `Except.error`; every other arm is total (`parseInt` /
`parseFloat` fall back to `NaN`, unknown tags keep the raw string). -/
def convertDataType (dataType raw : String) : Except Unit CValue :=
  match dataType with
  | "float" => .ok (parseFloatJS raw)
  | "int" => .ok (parseIntJS raw)
  | "bool" => .ok (.bool (raw.toLower == "true"))
  | "json" =>
    match jsonParse raw with
    | some v => .ok v
    | none => .error ()
  | _ => .ok (.str raw)

/-- JS `ToNumber` coercion of a scalar value; `none` models `NaN`. -/
def toNumber : CValue → Option ℚ
  | .num q => some q
  | .nan => none
  | .bool b => some (if b then 1 else 0)
  | .null => some 0
  | .str s => strToNumber s

/-- JS truthiness of a scalar value. -/
def truthy : CValue → Bool
  | .num q => decide (q ≠ 0)
  | .nan => false
  | .bool b => b
  | .null => false
  | .str s => decide (s ≠ "")

/-- JS `x >= c` for a number `x` against a scalar value `c`
(`ToNumber` coercion; any comparison against `NaN` is false). -/
def jsGE (x : ℚ) (c : CValue) : Bool :=
  match toNumber c with
  | some q => decide (q ≤ x)
  | none => false

/-- JS `d <= c` for an integer `d` against a scalar value `c`. -/
def jsLEInt (d : ℤ) (c : CValue) : Bool :=
  match toNumber c with
  | some q => decide ((d : ℚ) ≤ q)
  | none => false

/-- Milliseconds in a day (`1000 * 60 * 60 * 24`). -/
def msPerDay : ℤ := 86400000

/-- `Math.floor((now - registrationTime) / msPerDay)`: floor division,
also for negative differences. -/
def daysBetween (registrationTime now : ℤ) : ℤ :=
  Int.fdiv (now - registrationTime) msPerDay

/-- Result of `detectFraud`: `valid = false` means suspicious; matched
patterns are recorded by their 1-based index (the source stores a
formatted description string per pattern, abstracted here). -/
structure FraudVerdict where
  valid : Bool
  patterns : List ℕ
deriving DecidableEq, Repr

/-- `detectFraud` (`cpa-engine.js` lines 322-374): five fixed-threshold
pattern checks; any match makes the verdict suspicious.  The source's
internal `try`/`catch` is dead in this scalar model (no arm throws), so
the function is total. -/
def detectFraud (depositAmount betCount ggrAmount : ℚ)
    (registrationTime now : ℤ) : FraudVerdict :=
  let p1 := decide (1000 < depositAmount) && decide (betCount < 5)
  let p2 := decide (ggrAmount < -500)
  let p3 := decide (daysBetween registrationTime now < 1) && decide (50 < betCount)
  let avgBetAmount := if 0 < betCount then depositAmount / betCount else 0
  let p4 := decide (200 < avgBetAmount)
  let p5 := decide (depositAmount * 2 < ggrAmount)
  let patterns := (if p1 then [1] else []) ++ (if p2 then [2] else []) ++
    (if p3 then [3] else []) ++ (if p4 then [4] else []) ++ (if p5 then [5] else [])
  if patterns.isEmpty then ⟨true, patterns⟩ else ⟨false, patterns⟩

/-- The five validation criteria of `validateCPA`, in source order. -/
inductive Criterion where
  | deposit
  | bets
  | ggr
  | window
  | fraud
deriving DecidableEq, Repr

/-- The validation request payload; `registrationTime` is the epoch
value of the parsed `registrationDate` (the HTTP layer rejects invalid
dates before the engine is invoked). -/
structure ValidationRequest where
  depositAmount : ℚ
  betCount : ℚ
  ggrAmount : ℚ
  registrationTime : ℤ
deriving DecidableEq, Repr

/-- The six configuration values resolved at the start of a
`validateCPA` call, in the key order of the source; `CValue.null` is
the absent result of `getConfiguration`. -/
structure Configs where
  minDeposit : CValue
  minBets : CValue
  minGGR : CValue
  maxDays : CValue
  timezone : CValue
  fraudToggle : CValue
deriving DecidableEq, Repr

/-- The parts of the `validateCPA` response object the claims are
about; `outcomes` pairs each evaluated criterion with its boolean
result (the source's `rulesApplied` / `individualResults` lists,
with the formatted message abstracted to the criterion tag). -/
structure ValidationResult where
  result : String
  reason : String
  outcomes : List (Criterion × Bool)
deriving DecidableEq, Repr

/-- `validateCPA` (`cpa-engine.js` lines 165-320).  `fault` injects an
unexpected exception thrown during evaluation (the source's outer
`try`/`catch`): `some msg` models a throw with message `msg` and takes
the catch branch; `none` is the normal path. -/
def validateCPA (req : ValidationRequest) (cfg : Configs) (now : ℤ)
    (fault : Option String) : ValidationResult :=
  match fault with
  | some msg =>
    { result := "error"
      reason := "Erro durante validação: " ++ msg
      outcomes := [] }
  | none =>
    let o1 := if cfg.minDeposit ≠ CValue.null
      then [(Criterion.deposit, jsGE req.depositAmount cfg.minDeposit)] else []
    let o2 := if cfg.minBets ≠ CValue.null
      then [(Criterion.bets, jsGE req.betCount cfg.minBets)] else []
    let o3 := if cfg.minGGR ≠ CValue.null
      then [(Criterion.ggr, jsGE req.ggrAmount cfg.minGGR)] else []
    let o4 := if cfg.maxDays ≠ CValue.null
      then [(Criterion.window,
        jsLEInt (daysBetween req.registrationTime now) cfg.maxDays)] else []
    let o5 := if truthy cfg.fraudToggle
      then [(Criterion.fraud,
        (detectFraud req.depositAmount req.betCount req.ggrAmount
          req.registrationTime now).valid)] else []
    let outcomes := o1 ++ o2 ++ o3 ++ o4 ++ o5
    let allValid := outcomes.all (fun p => p.2)
    { result := if allValid then "approved" else "rejected"
      reason := if allValid then "Todas as validações aprovadas"
        else "Uma ou mais validações falharam"
      outcomes := outcomes }

/-- Smallest exponent `k ≤ q.den` with `q.den ∣ 10 ^ k`, when one
exists: the decimal length of a terminating rational.  Every finite
binary floating-point number has such a `k`. -/
def decExp (q : ℚ) : Option ℕ :=
  (List.range (q.den + 1)).find? (fun k => (10 : ℕ) ^ k % q.den == 0)

/-- Decimal rendering of a nonnegative terminating rational (JS
`String(x)` for such numbers).  The `"NaN"` fallback arm is
unreachable for values produced by the codec, which are all
terminating decimals. -/
def posToString (q : ℚ) : String :=
  match decExp q with
  | none => "NaN"
  | some k =>
    let n := q.num.toNat * 10 ^ k / q.den
    if k = 0 then String.mk (printNat n)
    else
      let fds := printNat (n % 10 ^ k)
      String.mk (printNat (n / 10 ^ k) ++
        '.' :: (List.replicate (k - fds.length) '0' ++ fds))

/-- JS `String(x)` for a finite number modelled as a rational. -/
def numToString (q : ℚ) : String :=
  if q < 0 then "-" ++ posToString (-q) else posToString q

/-- The text written to the remote tier (`cpa-engine.js` line 147):
`typeof value === 'object' ? JSON.stringify(value) : String(value)` —
`null` is the only scalar of type `'object'`. -/
def stringifyForRedis : CValue → String
  | .num q => numToString q
  | .nan => "NaN"
  | .bool b => if b then "true" else "false"
  | .str s => s
  | .null => "null"

/-- Decoding of a remote-tier hit (`cpa-engine.js` lines 92-97):
`JSON.parse` with fallback to the raw text on a parse error. -/
def redisDecode (s : String) : CValue :=
  (jsonParse s).getD (.str s)

/-- A local-tier cache entry: decoded value plus the `Date.now()`
timestamp recorded at the write. -/
structure CacheEntry where
  value : CValue
  timestamp : ℤ
deriving DecidableEq, Repr

/-- The engine state visible to `getConfiguration`: the local `Map`
(newest binding first) and the local TTL in milliseconds. -/
structure EngineState where
  cache : List (String × CacheEntry)
  cacheTTL : ℤ
deriving DecidableEq, Repr

/-- `Map.get`: the newest binding for the key, if any. -/
def lookupCache (c : List (String × CacheEntry)) (k : String) : Option CacheEntry :=
  (c.find? (fun p => p.1 == k)).map (fun p => p.2)

/-- Outcome of the remote-tier `get` for this call: a thrown transport
error, or a reply (`none` = no entry). -/
inductive RedisGet where
  | err
  | ok (v : Option String)
deriving DecidableEq, Repr

/-- Outcome of the origin request for this call: a thrown transport
error / timeout, or a response body `{success, data: {value, data_type}}`. -/
inductive OriginResp where
  | err
  | resp (success : Bool) (value : String) (dataType : String)
deriving DecidableEq, Repr

/-- The per-call environment: current time and the behaviour of the
two external collaborators during this call. -/
structure CallEnv where
  now : ℤ
  redisOpen : Bool
  redisGet : RedisGet
  redisSetFails : Bool
  origin : OriginResp
deriving DecidableEq, Repr

/-- Observable outcome of one `getConfiguration` call: the returned
value (`CValue.null` = absent), the successor state, whether the
remote tier was queried, whether the origin was requested, and the
text successfully written to the remote tier (if any). -/
structure GetResult where
  value : CValue
  state : EngineState
  redisGetAttempted : Bool
  originRequested : Bool
  remoteWrite : Option String
deriving DecidableEq, Repr

/-- The origin step of `getConfiguration` (`cpa-engine.js` lines
113-162): request the origin; on success decode and write both cache
tiers (a remote write failure is swallowed); on `success=false`,
transport error or decode throw, resolve to `null` with no writes. -/
def originStep (st : EngineState) (key : String) (env : CallEnv)
    (redisTried : Bool) : GetResult :=
  match env.origin with
  | .err => ⟨.null, st, redisTried, true, none⟩
  | .resp success raw dataType =>
    if success then
      match convertDataType dataType raw with
      | .error _ => ⟨.null, st, redisTried, true, none⟩
      | .ok v =>
        let st' : EngineState := ⟨(key, ⟨v, env.now⟩) :: st.cache, st.cacheTTL⟩
        if env.redisOpen && !env.redisSetFails then
          ⟨v, st', redisTried, true, some (stringifyForRedis v)⟩
        else ⟨v, st', redisTried, true, none⟩
    else ⟨.null, st, redisTried, true, none⟩

/-- The remote-tier step of `getConfiguration` (`cpa-engine.js` lines
87-111): only consulted when the client is open; a thrown error or an
empty reply falls through to the origin; a hit is decoded and
backfilled into the local tier. -/
def redisStep (st : EngineState) (key : String) (env : CallEnv) : GetResult :=
  if env.redisOpen then
    match env.redisGet with
    | .err => originStep st key env true
    | .ok none => originStep st key env true
    | .ok (some s) =>
      if s = "" then originStep st key env true
      else
        let v := redisDecode s
        ⟨v, ⟨(key, ⟨v, env.now⟩) :: st.cache, st.cacheTTL⟩, true, false, none⟩
  else originStep st key env false

/-- `getConfiguration` (`cpa-engine.js` lines 76-163): local tier
first (fresh iff `now - timestamp < cacheTTL`, lazy expiry), then the
remote tier, then the origin. -/
def getConfiguration (st : EngineState) (key : String) (env : CallEnv) : GetResult :=
  match lookupCache st.cache key with
  | some e =>
    if env.now - e.timestamp < st.cacheTTL then ⟨e.value, st, false, false, none⟩
    else redisStep st key env
  | none => redisStep st key env

/-- The local tier yields a fresh hit for this call. -/
def localFresh (st : EngineState) (key : String) (env : CallEnv) : Bool :=
  match lookupCache st.cache key with
  | some e => decide (env.now - e.timestamp < st.cacheTTL)
  | none => false

/-- The remote tier yields no hit for this call: closed client, thrown
read, absent entry, or the falsy empty-string entry. -/
def redisNoHit (env : CallEnv) : Prop :=
  env.redisOpen = false ∨ env.redisGet = .err ∨ env.redisGet = .ok none ∨
    env.redisGet = .ok (some "")

instance (env : CallEnv) : Decidable (redisNoHit env) := by
  unfold redisNoHit; infer_instance

/-! Concrete inputs used by counterexamples and witnesses. -/

/-- All-zero validation request. -/
def reqZero : ValidationRequest := ⟨0, 0, 0, 0⟩

/-- All configuration keys absent except the fraud toggle, which
resolved to the present boolean `false`. -/
def cfgFraudOff : Configs := ⟨.null, .null, .null, .null, .null, .bool false⟩

/-- All configuration keys absent except the fraud toggle, which
resolved to the string `"false"` (an unknown `data_type` tag keeps the
raw string): a present, non-boolean, truthy value. -/
def cfgFraudStr : Configs := ⟨.null, .null, .null, .null, .null, .str "false"⟩

/-- Empty local cache with the default 300000 ms TTL. -/
def stEmpty : EngineState := ⟨[], 300000⟩

/-- Call environment: closed remote tier, origin replies
`{success: true, value: "abc", data_type: "int"}`. -/
def envAbcInt : CallEnv := ⟨0, false, .ok none, false, .resp true "abc" "int"⟩

/-! Helper lemmas about the cache state machine. -/

theorem originStep_requested (st : EngineState) (key : String) (env : CallEnv)
    (rt : Bool) : (originStep st key env rt).originRequested = true := by
  unfold originStep
  rcases env.origin with _ | ⟨s, raw, dt⟩
  · rfl
  · dsimp only
    split
    · rcases convertDataType dt raw with _ | v
      · rfl
      · dsimp only
        split <;> rfl
    · rfl

theorem redisStep_eq_originStep (st : EngineState) (key : String) (env : CallEnv)
    (h : redisNoHit env) : redisStep st key env = originStep st key env env.redisOpen := by
  unfold redisStep
  rcases h with h | h | h | h <;> rw [h] <;> cases env.redisOpen <;> simp

theorem getConfiguration_eq_redisStep (st : EngineState) (key : String) (env : CallEnv)
    (h : localFresh st key env = false) :
    getConfiguration st key env = redisStep st key env := by
  unfold getConfiguration
  split
  next e heq =>
    have h2 : ¬ (env.now - e.timestamp < st.cacheTTL) := by
      unfold localFresh at h
      rw [heq] at h
      simpa using h
    rw [if_neg h2]
  next heq => rfl

theorem getConfiguration_local_hit (st : EngineState) (key : String) (env : CallEnv)
    (e : CacheEntry) (hl : lookupCache st.cache key = some e)
    (hf : env.now - e.timestamp < st.cacheTTL) :
    getConfiguration st key env = ⟨e.value, st, false, false, none⟩ := by
  unfold getConfiguration
  split
  next e2 heq =>
    rw [hl] at heq
    injection heq with heq
    subst heq
    rw [if_pos hf]
  next heq => rw [hl] at heq; exact absurd heq (by simp)

theorem originStep_ok (st : EngineState) (key : String) (env : CallEnv) (rt : Bool)
    (raw dt : String) (v : CValue) (hor : env.origin = .resp true raw dt)
    (hd : convertDataType dt raw = .ok v) :
    originStep st key env rt =
      if env.redisOpen && !env.redisSetFails then
        ⟨v, ⟨(key, ⟨v, env.now⟩) :: st.cache, st.cacheTTL⟩, rt, true,
          some (stringifyForRedis v)⟩
      else ⟨v, ⟨(key, ⟨v, env.now⟩) :: st.cache, st.cacheTTL⟩, rt, true, none⟩ := by
  unfold originStep
  rw [hor]
  simp [hd]

theorem originStep_absent (st : EngineState) (key : String) (env : CallEnv) (rt : Bool)
    (h : env.origin = .err ∨ (∃ raw dt, env.origin = .resp false raw dt) ∨
      (∃ raw dt, env.origin = .resp true raw dt ∧ convertDataType dt raw = .error ())) :
    originStep st key env rt = ⟨.null, st, rt, true, none⟩ := by
  unfold originStep
  rcases h with h | ⟨raw, dt, h⟩ | ⟨raw, dt, h, hd⟩ <;> rw [h]
  · simp
  · simp [hd]

theorem lookupCache_cons_self (c : List (String × CacheEntry)) (key : String)
    (e : CacheEntry) : lookupCache ((key, e) :: c) key = some e := by
  simp [lookupCache, List.find?]

/-- Claim C3: for a key with no local entry and no remote hit, a `get`
reaches the origin; a `get` that finds a fresh local entry
(`now - fetchedAt < TTL`) returns the cached value, leaves the state
unchanged and performs neither a remote-tier nor an origin request;
composing the two, after a first `get` that decoded an origin response,
any later `get` of the same key within the local TTL window returns the
same value with no network I/O. -/
theorem c3_cache_tiering :
    (∀ st key env, lookupCache st.cache key = none → redisNoHit env →
      (getConfiguration st key env).originRequested = true) ∧
    (∀ st key env e, lookupCache st.cache key = some e →
      env.now - e.timestamp < st.cacheTTL →
      getConfiguration st key env = ⟨e.value, st, false, false, none⟩) ∧
    (∀ st key env env' raw dt v, lookupCache st.cache key = none → redisNoHit env →
      env.origin = .resp true raw dt → convertDataType dt raw = .ok v →
      (getConfiguration st key env).value = v ∧
      (env'.now - env.now < st.cacheTTL →
        getConfiguration (getConfiguration st key env).state key env' =
          ⟨v, (getConfiguration st key env).state, false, false, none⟩)) := by
  refine ⟨?_, ?_, ?_⟩
  · intro st key env hl hr
    have hf : localFresh st key env = false := by unfold localFresh; rw [hl]
    rw [getConfiguration_eq_redisStep st key env hf,
      redisStep_eq_originStep st key env hr, originStep_requested]
  · intro st key env e hl hf
    exact getConfiguration_local_hit st key env e hl hf
  · intro st key env env' raw dt v hl hr hor hd
    have hf : localFresh st key env = false := by unfold localFresh; rw [hl]
    have hrun : getConfiguration st key env = originStep st key env env.redisOpen := by
      rw [getConfiguration_eq_redisStep st key env hf,
        redisStep_eq_originStep st key env hr]
    rw [hrun, originStep_ok st key env env.redisOpen raw dt v hor hd]
    have hcache : ∀ r : GetResult,
        r.state = ⟨(key, ⟨v, env.now⟩) :: st.cache, st.cacheTTL⟩ → r.value = v →
        r.value = v ∧ (env'.now - env.now < st.cacheTTL →
          getConfiguration r.state key env' = ⟨v, r.state, false, false, none⟩) := by
      intro r hst hv
      refine ⟨hv, fun hwin => ?_⟩
      have hl' : lookupCache r.state.cache key = some ⟨v, env.now⟩ := by
        rw [hst]; exact lookupCache_cons_self _ _ _
      have := getConfiguration_local_hit r.state key env' ⟨v, env.now⟩ hl'
        (by rw [hst]; exact hwin)
      rw [this]
    split <;> exact hcache _ rfl rfl

/-- Claim C3 witness: a concrete first call on an empty cache reaches
the origin and decodes `"30"` as the integer 30; a second call 100 ms
later returns 30 from the local tier with no remote or origin
request. -/
theorem c3_cache_tiering_witness :
    (getConfiguration stEmpty "k" ⟨0, false, .ok none, false, .resp true "30" "int"⟩).value =
      CValue.num 30 ∧
    getConfiguration
      (getConfiguration stEmpty "k"
        ⟨0, false, .ok none, false, .resp true "30" "int"⟩).state "k"
      ⟨100, false, .ok none, false, .resp true "30" "int"⟩ =
      ⟨CValue.num 30,
        (getConfiguration stEmpty "k"
          ⟨0, false, .ok none, false, .resp true "30" "int"⟩).state,
        false, false, none⟩ := by
  have h := c3_cache_tiering.2.2 stEmpty "k"
    ⟨0, false, .ok none, false, .resp true "30" "int"⟩
    ⟨100, false, .ok none, false, .resp true "30" "int"⟩
    "30" "int" (CValue.num 30) rfl (Or.inl rfl) rfl
    (by unfold convertDataType parseIntJS; simp +decide [parseNat])
  exact ⟨h.1, h.2 (by decide)⟩

/-- Claim C6: when every remote-tier read raises and every remote-tier
write raises, `get` still resolves the key via the origin: the read
error is swallowed and treated as a miss, the origin response is
decoded and returned, the local tier is filled, and the failed remote
write is swallowed (no successful remote write is recorded, yet the
decoded value — not an error — is returned to the caller). -/
theorem c6_fallback_resilience (st : EngineState) (key : String) (env : CallEnv)
    (raw dt : String) (v : CValue)
    (hl : localFresh st key env = false)
    (ho : env.redisOpen = true) (hg : env.redisGet = .err)
    (hs : env.redisSetFails = true)
    (hor : env.origin = .resp true raw dt) (hd : convertDataType dt raw = .ok v) :
    (getConfiguration st key env).value = v ∧
    (getConfiguration st key env).redisGetAttempted = true ∧
    (getConfiguration st key env).originRequested = true ∧
    (getConfiguration st key env).remoteWrite = none ∧
    lookupCache (getConfiguration st key env).state.cache key = some ⟨v, env.now⟩ := by
  have hrs : redisStep st key env = originStep st key env true := by
    unfold redisStep
    rw [ho, hg]
    simp
  rw [getConfiguration_eq_redisStep st key env hl, hrs,
    originStep_ok st key env true raw dt v hor hd, ho, hs]
  simp [lookupCache_cons_self]

/-- Claim C6 witness: with a throwing remote tier (reads and writes)
and an origin answering `{value: "30", data_type: "int"}`, `get`
returns 30, attempted the remote read, hit the origin, recorded no
remote write, and cached 30 locally. -/
theorem c6_fallback_resilience_witness :
    (getConfiguration stEmpty "k" ⟨0, true, .err, true, .resp true "30" "int"⟩).value =
      CValue.num 30 ∧
    (getConfiguration stEmpty "k" ⟨0, true, .err, true, .resp true "30" "int"⟩).remoteWrite =
      none :=
  have h := c6_fallback_resilience stEmpty "k"
    ⟨0, true, .err, true, .resp true "30" "int"⟩ "30" "int" (CValue.num 30)
    rfl rfl rfl rfl rfl
    (by unfold convertDataType parseIntJS; simp +decide [parseNat])
  ⟨h.1, h.2.2.2.1⟩

/-- Claim C8: when the origin throws (transport error / timeout) or
replies `success=false`, and neither cache tier produced a hit, the
key resolves to absent (`null`) with no local write and no remote
write; consequently any later call that again finds no local or remote
hit re-queries the origin. -/
theorem c8_no_negative_caching (st : EngineState) (key : String) (env : CallEnv)
    (hl : localFresh st key env = false) (hr : redisNoHit env)
    (ha : env.origin = .err ∨ ∃ raw dt, env.origin = .resp false raw dt) :
    (getConfiguration st key env).value = CValue.null ∧
    (getConfiguration st key env).state = st ∧
    (getConfiguration st key env).remoteWrite = none ∧
    (getConfiguration st key env).originRequested = true ∧
    (∀ env', localFresh st key env' = false → redisNoHit env' →
      (getConfiguration st key env').originRequested = true) := by
  have habs : env.origin = .err ∨ (∃ raw dt, env.origin = .resp false raw dt) ∨
      (∃ raw dt, env.origin = .resp true raw dt ∧ convertDataType dt raw = .error ()) := by
    rcases ha with h | h
    · exact Or.inl h
    · exact Or.inr (Or.inl h)
  rw [getConfiguration_eq_redisStep st key env hl,
    redisStep_eq_originStep st key env hr,
    originStep_absent st key env env.redisOpen habs]
  refine ⟨rfl, rfl, rfl, rfl, fun env' hl' hr' => ?_⟩
  rw [getConfiguration_eq_redisStep st key env' hl',
    redisStep_eq_originStep st key env' hr', originStep_requested]

/-- Claim C8 witness: a `success=false` origin response on an empty
cache resolves to absent, leaves the state unchanged, writes nothing
remotely, and a later identical call requests the origin again. -/
theorem c8_no_negative_caching_witness :
    (getConfiguration stEmpty "k" ⟨0, false, .ok none, false, .resp false "x" "int"⟩).value =
      CValue.null ∧
    (getConfiguration stEmpty "k" ⟨0, false, .ok none, false, .resp false "x" "int"⟩).state =
      stEmpty ∧
    (getConfiguration stEmpty "k"
      ⟨7, false, .ok none, false, .resp false "x" "int"⟩).originRequested = true :=
  have h := c8_no_negative_caching stEmpty "k"
    ⟨0, false, .ok none, false, .resp false "x" "int"⟩ rfl (Or.inl rfl)
    (Or.inr ⟨"x", "int", rfl⟩)
  ⟨h.1, h.2.1, h.2.2.2.2 ⟨7, false, .ok none, false, .resp false "x" "int"⟩ rfl (Or.inl rfl)⟩

/-- Claim C9: an origin success carrying `data_type` `int` (resp.
`float`) whose raw value does not parse as a number decodes to `NaN` —
neither the raw string nor absent — which is stored in the local
cache; and a `NaN` minimum-deposit configuration counts as present, so
the deposit criterion is evaluated, fails (a `>=` comparison against
`NaN` is false), and the verdict is `rejected` rather than the
criterion being skipped. -/
theorem c9_nan_config (st : EngineState) (key : String) (env : CallEnv)
    (raw dt : String)
    (hl : localFresh st key env = false) (hr : redisNoHit env)
    (hor : env.origin = .resp true raw dt)
    (hdt : (dt = "int" ∧ parseIntJS raw = CValue.nan) ∨
      (dt = "float" ∧ parseFloatJS raw = CValue.nan)) :
    (getConfiguration st key env).value = CValue.nan ∧
    lookupCache (getConfiguration st key env).state.cache key =
      some ⟨CValue.nan, env.now⟩ ∧
    CValue.nan ≠ CValue.str raw ∧ CValue.nan ≠ CValue.null ∧
    (∀ req cfg now, cfg.minDeposit = CValue.nan →
      (Criterion.deposit, false) ∈ (validateCPA req cfg now none).outcomes ∧
      (validateCPA req cfg now none).result = "rejected") := by
  have hd : convertDataType dt raw = .ok CValue.nan := by
    rcases hdt with ⟨hdt, hp⟩ | ⟨hdt, hp⟩ <;> subst hdt <;>
      simp [convertDataType, hp]
  rw [getConfiguration_eq_redisStep st key env hl,
    redisStep_eq_originStep st key env hr,
    originStep_ok st key env env.redisOpen raw dt CValue.nan hor hd]
  have hmain : ∀ req cfg now, cfg.minDeposit = CValue.nan →
      (Criterion.deposit, false) ∈ (validateCPA req cfg now none).outcomes ∧
      (validateCPA req cfg now none).result = "rejected" := by
    intro req cfg now hmin
    have hne : cfg.minDeposit ≠ CValue.null := by rw [hmin]; simp
    have hjs : jsGE req.depositAmount CValue.nan = false := rfl
    simp [validateCPA, hmin, hne, hjs, List.all_append]
  cases hb : (env.redisOpen && !env.redisSetFails) <;>
    exact ⟨rfl, lookupCache_cons_self _ _ _, by simp, by simp, hmain⟩

/-- Claim C9 witness: raw value `"abc"` with `data_type` `int` on an
empty cache decodes to `NaN` and is cached; with `NaN` as the minimum
deposit, the zero request is rejected with a failing deposit
outcome. -/
theorem c9_nan_config_witness :
    (getConfiguration stEmpty "k" envAbcInt).value = CValue.nan ∧
    (Criterion.deposit, false) ∈
      (validateCPA reqZero ⟨.nan, .null, .null, .null, .null, .null⟩ 0 none).outcomes ∧
    (validateCPA reqZero ⟨.nan, .null, .null, .null, .null, .null⟩ 0 none).result =
      "rejected" :=
  have h := c9_nan_config stEmpty "k" envAbcInt "abc" "int" rfl (Or.inl rfl) rfl
    (Or.inl ⟨rfl, rfl⟩)
  have h2 := h.2.2.2.2 reqZero ⟨.nan, .null, .null, .null, .null, .null⟩ 0 rfl
  ⟨h.1, h2.1, h2.2⟩

/-- Claim C2 counterexample: the raw value `"abc"` declared as `int`
does not decode to the raw string `"abc"`: the engine resolves it to
`NaN` (`parseInt` semantics), refuting "whenever the declared type
cannot be parsed from the raw string the raw string itself is
returned unchanged". -/
theorem c2_counterexample :
    (getConfiguration stEmpty "k" envAbcInt).value = CValue.nan ∧
    CValue.nan ≠ CValue.str "abc" := by
  refine ⟨rfl, by simp⟩

/-- Claim C2 as amended: decoding never lets an exception escape
`getConfiguration`; the raw string is returned unchanged only for an
unknown declared type tag, while an unparsable `int` (resp. `float`)
value yields `NaN` and a malformed `json` value is caught by the
top-level handler and resolves the key to absent with nothing
cached. -/
theorem c2_decode_total_amended (st : EngineState) (key : String) (env : CallEnv)
    (raw dt : String)
    (hl : localFresh st key env = false) (hr : redisNoHit env)
    (hor : env.origin = .resp true raw dt) :
    (dt ≠ "float" → dt ≠ "int" → dt ≠ "bool" → dt ≠ "json" →
      (getConfiguration st key env).value = CValue.str raw) ∧
    (dt = "json" → jsonParse raw = none →
      (getConfiguration st key env).value = CValue.null ∧
      (getConfiguration st key env).state = st ∧
      (getConfiguration st key env).remoteWrite = none) ∧
    (dt = "int" → parseIntJS raw = CValue.nan →
      (getConfiguration st key env).value = CValue.nan) ∧
    (dt = "float" → parseFloatJS raw = CValue.nan →
      (getConfiguration st key env).value = CValue.nan) := by
  rw [getConfiguration_eq_redisStep st key env hl,
    redisStep_eq_originStep st key env hr]
  refine ⟨?_, ?_, ?_, ?_⟩
  · intro h1 h2 h3 h4
    have hd : convertDataType dt raw = .ok (CValue.str raw) := by
      unfold convertDataType
      split <;> simp_all
    rw [originStep_ok st key env env.redisOpen raw dt (CValue.str raw) hor hd]
    cases hb : (env.redisOpen && !env.redisSetFails) <;> simp [hb]
  · intro h1 h2
    subst h1
    have hd : convertDataType "json" raw = .error () := by
      simp [convertDataType, h2]
    rw [originStep_absent st key env env.redisOpen
      (Or.inr (Or.inr ⟨raw, "json", hor, hd⟩))]
    exact ⟨rfl, rfl, rfl⟩
  · intro h1 h2
    subst h1
    have hd : convertDataType "int" raw = .ok CValue.nan := by
      simp [convertDataType, h2]
    rw [originStep_ok st key env env.redisOpen raw "int" CValue.nan hor hd]
    cases hb : (env.redisOpen && !env.redisSetFails) <;> simp [hb]
  · intro h1 h2
    subst h1
    have hd : convertDataType "float" raw = .ok CValue.nan := by
      simp [convertDataType, h2]
    rw [originStep_ok st key env env.redisOpen raw "float" CValue.nan hor hd]
    cases hb : (env.redisOpen && !env.redisSetFails) <;> simp [hb]

/-- Claim C2 (amended) witness: an unknown tag `"text"` keeps the raw
string `"hello"`; malformed json `"\x7bbad"` resolves to absent with the
state unchanged; `"abc"` as `int` yields `NaN`. -/
theorem c2_decode_total_amended_witness :
    (getConfiguration stEmpty "k"
      ⟨0, false, .ok none, false, .resp true "hello" "text"⟩).value =
      CValue.str "hello" ∧
    (getConfiguration stEmpty "k"
      ⟨0, false, .ok none, false, .resp true "\x7bbad" "json"⟩).value = CValue.null ∧
    (getConfiguration stEmpty "k"
      ⟨0, false, .ok none, false, .resp true "\x7bbad" "json"⟩).state = stEmpty ∧
    (getConfiguration stEmpty "k" envAbcInt).value = CValue.nan :=
  have h1 := (c2_decode_total_amended stEmpty "k"
    ⟨0, false, .ok none, false, .resp true "hello" "text"⟩ "hello" "text"
    rfl (Or.inl rfl) rfl).1 (by decide) (by decide) (by decide) (by decide)
  have h2 := (c2_decode_total_amended stEmpty "k"
    ⟨0, false, .ok none, false, .resp true "\x7bbad" "json"⟩ "\x7bbad" "json"
    rfl (Or.inl rfl) rfl).2.1 rfl rfl
  have h3 := (c2_decode_total_amended stEmpty "k" envAbcInt "abc" "int"
    rfl (Or.inl rfl) rfl).2.2.1 rfl rfl
  ⟨h1, h2.1, h2.2.1, h3⟩

/-! Structural equations for `validateCPA`, used by several claims. -/

theorem validateCPA_outcomes_eq (req : ValidationRequest) (cfg : Configs) (now : ℤ) :
    (validateCPA req cfg now none).outcomes =
      (if cfg.minDeposit ≠ CValue.null
        then [(Criterion.deposit, jsGE req.depositAmount cfg.minDeposit)] else []) ++
      (if cfg.minBets ≠ CValue.null
        then [(Criterion.bets, jsGE req.betCount cfg.minBets)] else []) ++
      (if cfg.minGGR ≠ CValue.null
        then [(Criterion.ggr, jsGE req.ggrAmount cfg.minGGR)] else []) ++
      (if cfg.maxDays ≠ CValue.null
        then [(Criterion.window,
          jsLEInt (daysBetween req.registrationTime now) cfg.maxDays)] else []) ++
      (if truthy cfg.fraudToggle
        then [(Criterion.fraud,
          (detectFraud req.depositAmount req.betCount req.ggrAmount
            req.registrationTime now).valid)] else []) := rfl

theorem validateCPA_result_eq (req : ValidationRequest) (cfg : Configs) (now : ℤ) :
    (validateCPA req cfg now none).result =
      if (validateCPA req cfg now none).outcomes.all (fun p => p.2)
      then "approved" else "rejected" := rfl

theorem mem_map_fst_ite_singleton {c : Prop} [Decidable c]
    (a x : Criterion) (b : Bool) :
    (x ∈ (if c then [(a, b)] else []).map Prod.fst) ↔ (c ∧ x = a) := by
  split <;> simp_all

/-- Claim C1 counterexample: a call whose fraud-toggle key resolved to
the present boolean `false` (all other keys absent) evaluates zero
criteria — the fraud criterion is skipped even though its
configuration key resolved to a present (non-absent) value, refuting
"a criterion is evaluated exactly when its configuration key resolved
to a present value". -/
theorem c1_counterexample :
    cfgFraudOff.fraudToggle ≠ CValue.null ∧
    Criterion.fraud ∉ ((validateCPA reqZero cfgFraudOff 0 none).outcomes.map Prod.fst) := by
  constructor
  · simp [cfgFraudOff]
  · rw [validateCPA_outcomes_eq]
    simp [cfgFraudOff, truthy]

/-- Claim C1 as amended: the verdict is `approved` iff every criterion
actually evaluated passed; the four threshold criteria are evaluated
exactly when their configuration key resolved to a present (non-null)
value, while the fraud criterion is evaluated exactly when the toggle
resolved to a truthy value; with zero evaluated criteria the result is
vacuously `approved`. -/
theorem c1_and_semantics_amended (req : ValidationRequest) (cfg : Configs) (now : ℤ) :
    ((validateCPA req cfg now none).result = "approved" ↔
      ∀ p ∈ (validateCPA req cfg now none).outcomes, p.2 = true) ∧
    (Criterion.deposit ∈ (validateCPA req cfg now none).outcomes.map Prod.fst ↔
      cfg.minDeposit ≠ CValue.null) ∧
    (Criterion.bets ∈ (validateCPA req cfg now none).outcomes.map Prod.fst ↔
      cfg.minBets ≠ CValue.null) ∧
    (Criterion.ggr ∈ (validateCPA req cfg now none).outcomes.map Prod.fst ↔
      cfg.minGGR ≠ CValue.null) ∧
    (Criterion.window ∈ (validateCPA req cfg now none).outcomes.map Prod.fst ↔
      cfg.maxDays ≠ CValue.null) ∧
    (Criterion.fraud ∈ (validateCPA req cfg now none).outcomes.map Prod.fst ↔
      truthy cfg.fraudToggle = true) ∧
    ((validateCPA req cfg now none).outcomes = [] →
      (validateCPA req cfg now none).result = "approved") := by
  refine ⟨?_, ?_, ?_, ?_, ?_, ?_, ?_⟩
  · rw [validateCPA_result_eq]
    split
    next hall => simpa using (List.all_eq_true.mp hall)
    next hall =>
      constructor
      · intro hc; exact absurd hc (by decide)
      · intro hp; exact absurd (List.all_eq_true.mpr hp) (by simp_all)
  · rw [validateCPA_outcomes_eq]
    simp only [List.map_append, List.mem_append, mem_map_fst_ite_singleton]
    simp
  · rw [validateCPA_outcomes_eq]
    simp only [List.map_append, List.mem_append, mem_map_fst_ite_singleton]
    simp
  · rw [validateCPA_outcomes_eq]
    simp only [List.map_append, List.mem_append, mem_map_fst_ite_singleton]
    simp
  · rw [validateCPA_outcomes_eq]
    simp only [List.map_append, List.mem_append, mem_map_fst_ite_singleton]
    simp
  · rw [validateCPA_outcomes_eq]
    simp only [List.map_append, List.mem_append, mem_map_fst_ite_singleton]
    simp
  · intro hout
    rw [validateCPA_result_eq, hout]
    rfl

/-- Claim C1 (amended) witness: with every configuration key absent no
criterion is evaluated and the result is vacuously `approved`. -/
theorem c1_and_semantics_amended_witness :
    (validateCPA reqZero ⟨.null, .null, .null, .null, .null, .null⟩ 0 none).result =
      "approved" :=
  (c1_and_semantics_amended reqZero ⟨.null, .null, .null, .null, .null, .null⟩ 0).2.2.2.2.2.2
    rfl

/-- Claim C7 counterexample: the fraud-toggle key resolved to the
string `"false"` — present and truthy but not the boolean `true` — and
the fraud criterion is nevertheless evaluated, refuting "evaluated if
and only if the toggle resolved to the boolean value true" (the source
gate is JS truthiness, `if (fraudDetection)`). -/
theorem c7_counterexample :
    cfgFraudStr.fraudToggle ≠ CValue.bool true ∧
    Criterion.fraud ∈ ((validateCPA reqZero cfgFraudStr 0 none).outcomes.map Prod.fst) := by
  constructor
  · simp [cfgFraudStr]
  · rw [validateCPA_outcomes_eq]
    simp [cfgFraudStr, truthy]

/-- Claim C7 as amended: the fraud criterion is evaluated in a
`validate()` call iff the fraud-toggle key resolved to a truthy value
(boolean `true`, any nonzero finite number, or any nonempty string —
not only the boolean `true`); when it is evaluated, a suspicious
verdict records a failed outcome and forces the final verdict to
`rejected`. -/
theorem c7_fraud_gate_amended (req : ValidationRequest) (cfg : Configs) (now : ℤ) :
    (Criterion.fraud ∈ (validateCPA req cfg now none).outcomes.map Prod.fst ↔
      truthy cfg.fraudToggle = true) ∧
    (truthy cfg.fraudToggle = true →
      (Criterion.fraud,
        (detectFraud req.depositAmount req.betCount req.ggrAmount
          req.registrationTime now).valid) ∈ (validateCPA req cfg now none).outcomes) ∧
    (truthy cfg.fraudToggle = true →
      (detectFraud req.depositAmount req.betCount req.ggrAmount
        req.registrationTime now).valid = false →
      (validateCPA req cfg now none).result = "rejected") := by
  refine ⟨?_, ?_, ?_⟩
  · rw [validateCPA_outcomes_eq]
    simp only [List.map_append, List.mem_append, mem_map_fst_ite_singleton]
    simp
  · intro ht
    rw [validateCPA_outcomes_eq]
    simp [ht]
  · intro ht hsusp
    rw [validateCPA_result_eq]
    have hmem : (Criterion.fraud, false) ∈ (validateCPA req cfg now none).outcomes := by
      rw [validateCPA_outcomes_eq]
      simp [ht, hsusp]
    have hall : (validateCPA req cfg now none).outcomes.all (fun p => p.2) = false := by
      by_contra hc
      have := List.all_eq_true.mp (Bool.of_not_eq_false hc) _ hmem
      simp at this
    rw [hall]
    rfl

/-- Claim C7 (amended) witness: with the toggle resolved to the
boolean `true` and a request matching fraud pattern 1 (deposit 2000,
3 bets), the fraud outcome is recorded and the verdict is
`rejected`. -/
theorem c7_fraud_gate_amended_witness :
    (validateCPA ⟨2000, 3, 100, 0⟩
      ⟨.null, .null, .null, .null, .null, .bool true⟩ 0 none).result = "rejected" :=
  (c7_fraud_gate_amended ⟨2000, 3, 100, 0⟩
    ⟨.null, .null, .null, .null, .null, .bool true⟩ 0).2.2 rfl
    (by unfold detectFraud; simp +decide [daysBetween, msPerDay])

/-- Claim C5: `validate()` never raises: an injected evaluation fault
is caught at the top and converted into a well-formed result with
`result = "error"` carrying the fault message (and an empty outcome
list), and this is the only path producing an error result — the
normal path yields only `approved` or `rejected`. -/
theorem c5_pipeline_fault (req : ValidationRequest) (cfg : Configs) (now : ℤ)
    (fault : Option String) :
    ((validateCPA req cfg now fault).result = "error" ↔ ∃ m, fault = some m) ∧
    (∀ m, fault = some m →
      (validateCPA req cfg now fault).reason = "Erro durante validação: " ++ m ∧
      (validateCPA req cfg now fault).outcomes = []) ∧
    (fault = none →
      (validateCPA req cfg now fault).result = "approved" ∨
      (validateCPA req cfg now fault).result = "rejected") := by
  rcases fault with _ | msg
  · refine ⟨?_, ?_, ?_⟩
    · constructor
      · intro hc
        rw [validateCPA_result_eq] at hc
        revert hc
        split <;> intro hc <;> exact absurd hc (by decide)
      · rintro ⟨m, hm⟩
        cases hm
    · intro m hm
      cases hm
    · intro _
      rw [validateCPA_result_eq]
      split
      · exact Or.inl rfl
      · exact Or.inr rfl
  · exact ⟨⟨fun _ => ⟨msg, rfl⟩, fun _ => rfl⟩,
      fun m hm => by cases hm; exact ⟨rfl, rfl⟩,
      fun hc => by cases hc⟩

/-- Claim C5 witness: an injected fault with message `"boom"` yields
an error result carrying the message, with no outcomes; without a
fault the same call is `approved` or `rejected`. -/
theorem c5_pipeline_fault_witness :
    (validateCPA reqZero cfgFraudOff 0 (some "boom")).result = "error" ∧
    (validateCPA reqZero cfgFraudOff 0 (some "boom")).reason =
      "Erro durante validação: " ++ "boom" :=
  ⟨(c5_pipeline_fault reqZero cfgFraudOff 0 (some "boom")).1.mpr ⟨"boom", rfl⟩,
    ((c5_pipeline_fault reqZero cfgFraudOff 0 (some "boom")).2.1 "boom" rfl).1⟩

theorem fraudValid_eq (d b g : ℚ) (rt now : ℤ) :
    (detectFraud d b g rt now).valid =
      !((decide (1000 < d) && decide (b < 5)) || decide (g < -500) ||
        (decide (daysBetween rt now < 1) && decide (50 < b)) ||
        decide (200 < (if 0 < b then d / b else 0)) || decide (d * 2 < g)) := by
  unfold detectFraud
  dsimp only
  cases decide (1000 < d) <;> cases decide (b < 5) <;> cases decide (g < -500) <;>
    cases decide (daysBetween rt now < 1) <;> cases decide (50 < b) <;>
    cases decide (200 < (if 0 < b then d / b else 0)) <;> cases decide (d * 2 < g) <;>
    rfl

/-- Claim C4: `detectFraud` is suspicious iff at least one of the five
fixed-threshold checks matches — deposit > 1000 with bets < 5; GGR
< -500; bets > 50 with floored days since registration < 1; average
stake (deposit / bets, 0 when bets = 0) > 200; GGR > 2·deposit — and
zero matches yields not-suspicious.  The bet count is nonnegative (the
HTTP layer rejects negative `betCount` before the engine runs).
Concretely, `{deposit: 2000, bets: 3, ggr: 100}` is suspicious with
pattern 1 matched, and `{deposit: 100, bets: 20, ggr: 50}` is not. -/
theorem c4_fraud_patterns (d b g : ℚ) (rt now : ℤ) (hb : 0 ≤ b) :
    ((detectFraud d b g rt now).valid = false ↔
      ((1000 < d ∧ b < 5) ∨ g < -500 ∨
        (50 < b ∧ daysBetween rt now < 1) ∨
        200 < (if b = 0 then (0 : ℚ) else d / b) ∨ 2 * d < g)) ∧
    ((detectFraud 2000 3 100 0 0).valid = false ∧
      1 ∈ (detectFraud 2000 3 100 0 0).patterns) ∧
    (detectFraud 100 20 50 0 0).valid = true := by
  refine ⟨?_, ?_, ?_⟩
  · have havg : (if 0 < b then d / b else 0) = (if b = 0 then (0 : ℚ) else d / b) := by
      rcases lt_or_eq_of_le hb with h | h
      · rw [if_pos h, if_neg (by exact fun hc => absurd (hc ▸ h) (lt_irrefl (0 : ℚ)))]
      · rw [if_neg (by rw [← h]; exact lt_irrefl (0 : ℚ)), if_pos h.symm]
    rw [fraudValid_eq d b g rt now, havg, mul_comm d 2]
    simp only [Bool.not_eq_false', Bool.or_eq_true, Bool.and_eq_true,
      decide_eq_true_eq]
    tauto
  · constructor
    · unfold detectFraud
      simp +decide [daysBetween, msPerDay]
    · unfold detectFraud
      simp +decide [daysBetween, msPerDay]
  · unfold detectFraud
    simp +decide [daysBetween, msPerDay]
    norm_num

/-- Claim C4 witness: the nonnegative-bet-count hypothesis discharged
at the concrete non-suspicious example. -/
theorem c4_fraud_patterns_witness : (detectFraud 100 20 50 0 0).valid = true :=
  (c4_fraud_patterns 100 20 50 0 0 (by norm_num)).2.2

/-! Decimal printer / parser round-trip machinery, for the remote-tier
write (`String(value)`) against the remote-tier readback
(`JSON.parse`). -/

theorem digitChar_isDigit (d : ℕ) (h : d < 10) : (digitChar d).isDigit = true := by
  interval_cases d <;> decide

theorem digitVal_digitChar (d : ℕ) (h : d < 10) : digitVal (digitChar d) = d := by
  interval_cases d <;> decide

theorem digitChar_ne_zero_char (d : ℕ) (h : d < 10) (hd : d ≠ 0) :
    digitChar d ≠ '0' := by
  interval_cases d <;> simp_all <;> decide

theorem printNat_all_isDigit (n : ℕ) : ∀ c ∈ printNat n, c.isDigit = true := by
  intro c hc
  unfold printNat at hc
  split at hc
  · simp at hc
    rw [hc]; decide
  · simp only [List.mem_reverse, List.mem_map] at hc
    obtain ⟨d, hd, hcd⟩ := hc
    rw [← hcd]
    exact digitChar_isDigit d (Nat.digits_lt_base (by norm_num) hd)

theorem printNat_ne_nil (n : ℕ) : printNat n ≠ [] := by
  unfold printNat
  split
  · simp
  · simp only [ne_eq, List.reverse_eq_nil_iff, List.map_eq_nil_iff]
    exact Nat.digits_ne_nil_iff_ne_zero.mpr (by assumption)

theorem parseNat_printNat (n : ℕ) : parseNat (printNat n) = n := by
  unfold parseNat printNat
  split
  · next h => subst h; decide
  · rw [List.map_reverse, List.reverse_reverse, List.map_map]
    have h2 : List.map (digitVal ∘ digitChar) (Nat.digits 10 n) =
        List.map id (Nat.digits 10 n) :=
      List.map_congr_left (fun d hd =>
        digitVal_digitChar d (Nat.digits_lt_base (by norm_num) hd))
    rw [h2, List.map_id]
    exact Nat.ofDigits_digits 10 n

theorem ofDigits_replicate_zero (z : ℕ) :
    Nat.ofDigits 10 (List.replicate z 0) = 0 := by
  induction z with
  | zero => rfl
  | succ m ih => simp [List.replicate_succ, Nat.ofDigits_cons, ih]

theorem parseNat_replicate_zero_append (z : ℕ) (l : List Char) :
    parseNat (List.replicate z '0' ++ l) = parseNat l := by
  unfold parseNat
  rw [List.map_append, List.reverse_append, Nat.ofDigits_append]
  have hz : List.map digitVal (List.replicate z '0') = List.replicate z 0 := by
    rw [List.map_replicate]
    rfl
  rw [hz, List.reverse_replicate, ofDigits_replicate_zero]
  simp

theorem printNat_length_le (n k : ℕ) (hk : 1 ≤ k) (h : n < 10 ^ k) :
    (printNat n).length ≤ k := by
  unfold printNat
  split
  · simpa using hk
  · next hn =>
    rw [List.length_reverse, List.length_map,
      Nat.digits_len 10 n (by norm_num) hn]
    exact Nat.log_lt_of_lt_pow hn h

theorem printNat_leading_check (n : ℕ) :
    ((printNat n).length > 1 && (printNat n).head? == some '0') = false := by
  by_cases hn : n = 0
  · subst hn; decide
  · rcases hlen : ((printNat n).length > 1 : Bool) with _ | _
    · simp [hlen]
    · have hhead : (printNat n).head? = some (digitChar ((Nat.digits 10 n).getLast
        (Nat.digits_ne_nil_iff_ne_zero.mpr hn))) := by
        unfold printNat
        rw [if_neg hn, List.head?_reverse, List.getLast?_map]
        rw [List.getLast?_eq_getLast _ (Nat.digits_ne_nil_iff_ne_zero.mpr hn)]
        rfl
      have hne : digitChar ((Nat.digits 10 n).getLast
          (Nat.digits_ne_nil_iff_ne_zero.mpr hn)) ≠ '0' := by
        apply digitChar_ne_zero_char
        · exact Nat.digits_lt_base (by norm_num) (List.getLast_mem _)
        · exact Nat.getLast_digit_ne_zero 10 hn
      rw [hhead]
      simp [hne]

theorem isDigit_bounds (c : Char) (h : c.isDigit = true) :
    48 ≤ c.toNat ∧ c.toNat ≤ 57 := by
  simp only [Char.isDigit, Bool.and_eq_true, decide_eq_true_eq] at h
  exact ⟨h.1, h.2⟩

theorem isDigit_excludes (c : Char) (h : c.isDigit = true) :
    c ≠ 't' ∧ c ≠ 'f' ∧ c ≠ 'n' ∧ c ≠ '"' ∧ c ≠ '-' := by
  obtain ⟨h1, h2⟩ := isDigit_bounds c h
  refine ⟨?_, ?_, ?_, ?_, ?_⟩ <;> intro hc <;> subst hc <;> simp_all

theorem takeWhile_eq_self_of_all (p : Char → Bool) (l : List Char)
    (h : ∀ c ∈ l, p c = true) : l.takeWhile p = l := by
  induction l with
  | nil => rfl
  | cons a t ih =>
    rw [List.takeWhile_cons_of_pos (h a (by simp))]
    rw [ih (fun c hc => h c (by simp [hc]))]

theorem dropWhile_eq_nil_of_all (p : Char → Bool) (l : List Char)
    (h : ∀ c ∈ l, p c = true) : l.dropWhile p = [] := by
  induction l with
  | nil => rfl
  | cons a t ih =>
    rw [List.dropWhile_cons_of_pos (h a (by simp))]
    exact ih (fun c hc => h c (by simp [hc]))

theorem jsonNumber_printNat (n : ℕ) : jsonNumber (printNat n) = some (n : ℚ) := by
  have hall := printNat_all_isDigit n
  obtain ⟨c0, cs0, hc⟩ := List.exists_cons_of_ne_nil (printNat_ne_nil n)
  have hd0 : c0.isDigit = true := hall c0 (by rw [hc]; simp)
  have hneg : ((printNat n).head? == some '-') = false := by
    rw [hc]
    simp [(isDigit_excludes c0 hd0).2.2.2.2]
  have hemp : (printNat n).isEmpty = false := by rw [hc]; rfl
  unfold jsonNumber
  dsimp only
  rw [hneg]
  simp only [Bool.false_eq_true, if_false]
  rw [takeWhile_eq_self_of_all Char.isDigit (printNat n) hall,
    dropWhile_eq_nil_of_all Char.isDigit (printNat n) hall]
  rw [hemp, printNat_leading_check n]
  simp [parseNat_printNat n]

theorem jsonNumber_printNat_frac (i f k : ℕ) (hk : 0 < k) (hf : f < 10 ^ k) :
    jsonNumber (printNat i ++ '.' ::
        (List.replicate (k - (printNat f).length) '0' ++ printNat f)) =
      some ((i : ℚ) + (f : ℚ) / 10 ^ k) := by
  have halli := printNat_all_isDigit i
  have hallf := printNat_all_isDigit f
  obtain ⟨c0, cs0, hc⟩ := List.exists_cons_of_ne_nil (printNat_ne_nil i)
  have hd0 : c0.isDigit = true := halli c0 (by rw [hc]; simp)
  set pad : List Char :=
    List.replicate (k - (printNat f).length) '0' ++ printNat f with hpad
  have hpadlen : pad.length = k := by
    rw [hpad, List.length_append, List.length_replicate]
    have := printNat_length_le f k hk hf
    omega
  have hpadall : ∀ c ∈ pad, c.isDigit = true := by
    intro c hcm
    rw [hpad] at hcm
    rcases List.mem_append.mp hcm with hm | hm
    · rw [List.eq_of_mem_replicate hm]; decide
    · exact hallf c hm
  have hneg : ((printNat i ++ '.' :: pad).head? == some '-') = false := by
    rw [hc]
    simp [(isDigit_excludes c0 hd0).2.2.2.2]
  have hemp : (printNat i).isEmpty = false := by rw [hc]; rfl
  unfold jsonNumber
  dsimp only
  rw [hneg]
  simp only [Bool.false_eq_true, if_false]
  rw [List.takeWhile_append_of_pos halli, List.dropWhile_append_of_pos halli,
    List.takeWhile_cons_of_neg (by decide), List.dropWhile_cons_of_neg (by decide)]
  rw [List.append_nil]
  rw [hemp, printNat_leading_check i]
  have hfr : ('.' :: pad).tail = pad := rfl
  have hfremp : pad.isEmpty = false := by
    rcases hpe : pad with _ | ⟨a, t⟩
    · rw [hpe] at hpadlen; simp at hpadlen; omega
    · rfl
  have hfrall : pad.all Char.isDigit = true := List.all_eq_true.mpr hpadall
  simp only [List.isEmpty_cons, List.head?_cons, hfr, hfremp, hfrall]
  rw [hpad, parseNat_replicate_zero_append, parseNat_printNat, parseNat_printNat]
  rw [← hpad, hpadlen]
  simp

theorem jsonParse_eq_number (s : String) (c0 : Char) (cs0 : List Char)
    (hcs : s.toList = c0 :: cs0)
    (h1 : c0 ≠ 't') (h2 : c0 ≠ 'f') (h3 : c0 ≠ 'n') (h4 : c0 ≠ '"') :
    jsonParse s = (jsonNumber s.toList).map .num := by
  have ht : ("true".toList) = ['t', 'r', 'u', 'e'] := rfl
  have hf : ("false".toList) = ['f', 'a', 'l', 's', 'e'] := rfl
  have hn : ("null".toList) = ['n', 'u', 'l', 'l'] := rfl
  unfold jsonParse
  dsimp only
  rw [hcs, ht, hf, hn]
  rw [if_neg (by simp [h1]), if_neg (by simp [h2]), if_neg (by simp [h3])]
  rw [if_neg (by simp [h4])]

theorem jsonNumber_cons_dash (cs : List Char) (hh : (cs.head? == some '-') = false) :
    jsonNumber ('-' :: cs) = (jsonNumber cs).map (fun x => -x) := by
  unfold jsonNumber
  dsimp only
  rw [hh]
  simp only [List.head?_cons, beq_self_eq_true, if_pos rfl, List.tail_cons,
    Bool.false_eq_true, if_false]
  split_ifs <;> simp [neg_mul, one_mul, neg_add]

theorem decExp_spec (q : ℚ) (h : q.den ∣ 10 ^ q.den) :
    ∃ k, decExp q = some k ∧ q.den ∣ 10 ^ k := by
  have hsome : (decExp q).isSome := by
    unfold decExp
    rw [List.find?_isSome]
    refine ⟨q.den, by simp, by simp [Nat.mod_eq_zero_of_dvd h]⟩
  obtain ⟨k, hk⟩ := Option.isSome_iff_exists.mp hsome
  refine ⟨k, hk, ?_⟩
  unfold decExp at hk
  have hp := List.find?_some hk
  simp only [beq_iff_eq] at hp
  exact Nat.dvd_of_mod_eq_zero hp

theorem jsonNumber_posToString (q : ℚ) (hq : 0 ≤ q) (h : q.den ∣ 10 ^ q.den) :
    jsonNumber (posToString q).toList = some q ∧
    ∃ c0 cs0, (posToString q).toList = c0 :: cs0 ∧ c0.isDigit = true := by
  obtain ⟨k, hdec, hdvd⟩ := decExp_spec q h
  obtain ⟨t, ht⟩ := hdvd
  have hden0 : 0 < q.den := q.den_pos
  have hnum0 : 0 ≤ q.num := Rat.num_nonneg.mpr hq
  have hdQ : ((q.den : ℚ)) ≠ 0 := Nat.cast_ne_zero.mpr hden0.ne'
  have hqd : q * (q.den : ℚ) = (q.num : ℚ) := by
    have h0 := Rat.num_div_den q
    rw [div_eq_iff hdQ] at h0
    linarith [h0]
  have hkey : ((q.num.toNat * 10 ^ k / q.den : ℕ) : ℚ) = q * 10 ^ k := by
    have hn2 : q.num.toNat * 10 ^ k / q.den = q.num.toNat * t := by
      rw [ht, show q.num.toNat * (q.den * t) = q.den * (q.num.toNat * t) by ring]
      exact Nat.mul_div_cancel_left _ hden0
    rw [hn2]
    have h10 : ((10 : ℚ)) ^ k = (q.den : ℚ) * (t : ℚ) := by
      have := congrArg (fun m : ℕ => (m : ℚ)) ht
      push_cast at this
      exact this
    push_cast [Int.toNat_of_nonneg hnum0]
    rw [h10, ← mul_assoc, hqd]
    congr 1
    exact_mod_cast Int.toNat_of_nonneg hnum0
  unfold posToString
  rw [hdec]
  dsimp only
  by_cases hk0 : k = 0
  · subst hk0
    rw [if_pos rfl]
    have htl : (String.mk (printNat (q.num.toNat * 10 ^ 0 / q.den))).toList =
        printNat (q.num.toNat * 10 ^ 0 / q.den) := rfl
    rw [htl]
    have hqn : ((q.num.toNat * 10 ^ 0 / q.den : ℕ) : ℚ) = q := by
      rw [hkey]; simp
    refine ⟨by rw [jsonNumber_printNat, hqn], ?_⟩
    obtain ⟨c0, cs0, hc⟩ :=
      List.exists_cons_of_ne_nil (printNat_ne_nil (q.num.toNat * 10 ^ 0 / q.den))
    exact ⟨c0, cs0, hc, printNat_all_isDigit _ c0 (by rw [hc]; simp)⟩
  · rw [if_neg hk0]
    have hkpos : 0 < k := Nat.pos_of_ne_zero hk0
    set n := q.num.toNat * 10 ^ k / q.den with hn
    have htl : (String.mk (printNat (n / 10 ^ k) ++ '.' ::
        (List.replicate (k - (printNat (n % 10 ^ k)).length) '0' ++
          printNat (n % 10 ^ k)))).toList =
        printNat (n / 10 ^ k) ++ '.' ::
        (List.replicate (k - (printNat (n % 10 ^ k)).length) '0' ++
          printNat (n % 10 ^ k)) := rfl
    rw [htl]
    have hmod : n % 10 ^ k < 10 ^ k := Nat.mod_lt _ (by positivity)
    rw [jsonNumber_printNat_frac (n / 10 ^ k) (n % 10 ^ k) k hkpos hmod]
    have hsplit : ((n : ℚ)) = (n / 10 ^ k : ℕ) * 10 ^ k + ((n % 10 ^ k : ℕ) : ℚ) := by
      have := (Nat.div_add_mod n (10 ^ k)).symm
      have hc := congrArg (fun m : ℕ => (m : ℚ)) this
      push_cast at hc
      rw [hc]; ring
    have hval : ((n / 10 ^ k : ℕ) : ℚ) + ((n % 10 ^ k : ℕ) : ℚ) / 10 ^ k = q := by
      have h10 : ((10 : ℚ)) ^ k ≠ 0 := by positivity
      field_simp
      rw [hsplit] at hkey
      linarith [hkey]
    refine ⟨by rw [hval], ?_⟩
    obtain ⟨c0, cs0, hc⟩ := List.exists_cons_of_ne_nil (printNat_ne_nil (n / 10 ^ k))
    refine ⟨c0, cs0 ++ '.' :: _, by rw [hc, List.cons_append], ?_⟩
    exact printNat_all_isDigit _ c0 (by rw [hc]; simp)

theorem jsonParse_posToString (q : ℚ) (hq : 0 ≤ q) (h : q.den ∣ 10 ^ q.den) :
    jsonParse (posToString q) = some (.num q) := by
  obtain ⟨hjn, c0, cs0, hcs, hd0⟩ := jsonNumber_posToString q hq h
  obtain ⟨h1, h2, h3, h4, _⟩ := isDigit_excludes c0 hd0
  rw [jsonParse_eq_number (posToString q) c0 cs0 hcs h1 h2 h3 h4, hjn]
  rfl

theorem jsonParse_numToString (q : ℚ) (h : q.den ∣ 10 ^ q.den) :
    jsonParse (numToString q) = some (.num q) := by
  by_cases hq : q < 0
  · unfold numToString
    rw [if_pos hq]
    have hd : (-q).den = q.den := Rat.den_neg_eq_den q
    have hq' : 0 ≤ -q := by linarith
    have h' : (-q).den ∣ 10 ^ (-q).den := by rw [hd]; exact h
    obtain ⟨hjn, c0, cs0, hcs, hd0⟩ := jsonNumber_posToString (-q) hq' h'
    have h5 := (isDigit_excludes c0 hd0).2.2.2.2
    have htl : ("-" ++ posToString (-q)).toList = '-' :: (posToString (-q)).toList := by
      show ("-" ++ posToString (-q)).data = '-' :: (posToString (-q)).data
      rw [String.data_append]
      rfl
    rw [jsonParse_eq_number ("-" ++ posToString (-q)) '-' ((posToString (-q)).toList)
      htl (by decide) (by decide) (by decide) (by decide), htl]
    have hh : (((posToString (-q)).toList).head? == some '-') = false := by
      rw [hcs]
      simp [h5]
    rw [jsonNumber_cons_dash _ hh, hjn]
    simp
  · unfold numToString
    rw [if_neg hq]
    exact jsonParse_posToString q (le_of_not_lt hq) h

theorem numToString_ne_empty (q : ℚ) (h : q.den ∣ 10 ^ q.den) :
    numToString q ≠ "" := by
  intro hc
  have hl := congrArg String.toList hc
  by_cases hq : q < 0
  · unfold numToString at hl
    rw [if_pos hq] at hl
    have htl : ("-" ++ posToString (-q)).toList = '-' :: (posToString (-q)).toList := by
      show ("-" ++ posToString (-q)).data = '-' :: (posToString (-q)).data
      rw [String.data_append]
      rfl
    rw [htl] at hl
    exact List.cons_ne_nil _ _ hl
  · unfold numToString at hl
    rw [if_neg hq] at hl
    obtain ⟨_, c0, cs0, hcs, _⟩ :=
      jsonNumber_posToString q (le_of_not_lt hq) h
    rw [hcs] at hl
    exact List.cons_ne_nil _ _ hl

theorem getConfiguration_redis_hit (st : EngineState) (key : String) (env : CallEnv)
    (s : String) (hl : lookupCache st.cache key = none)
    (ho : env.redisOpen = true) (hg : env.redisGet = .ok (some s)) (hs : s ≠ "") :
    getConfiguration st key env =
      ⟨redisDecode s, ⟨(key, ⟨redisDecode s, env.now⟩) :: st.cache, st.cacheTTL⟩,
        true, false, none⟩ := by
  have hf : localFresh st key env = false := by unfold localFresh; rw [hl]
  rw [getConfiguration_eq_redisStep st key env hf]
  unfold redisStep
  rw [ho, hg]
  simp [hs]

/-- Claim C10: the remote-tier round trip — the origin path writes
`String(value)`, a later remote hit reads it back with `JSON.parse`
falling back to the raw text — preserves every boolean value and every
finite (decimal-representable) numeric value; the origin path records
exactly `stringifyForRedis v` as the remote write; and the round trip
is not type-preserving for strings: the string `"123"` reads back as
the number 123. -/
theorem c10_remote_roundtrip :
    (∀ st key env b, lookupCache st.cache key = none → env.redisOpen = true →
      env.redisGet = .ok (some (stringifyForRedis (.bool b))) →
      (getConfiguration st key env).value = .bool b) ∧
    (∀ st key env q, lookupCache st.cache key = none → env.redisOpen = true →
      env.redisGet = .ok (some (stringifyForRedis (.num q))) → q.den ∣ 10 ^ q.den →
      (getConfiguration st key env).value = .num q) ∧
    (∀ st key env raw dt v, localFresh st key env = false → redisNoHit env →
      env.origin = .resp true raw dt → convertDataType dt raw = .ok v →
      env.redisOpen = true → env.redisSetFails = false →
      (getConfiguration st key env).remoteWrite = some (stringifyForRedis v)) ∧
    (∀ st key env, lookupCache st.cache key = none → env.redisOpen = true →
      env.redisGet = .ok (some (stringifyForRedis (.str "123"))) →
      (getConfiguration st key env).value = .num 123 ∧
      CValue.num 123 ≠ .str "123") := by
  refine ⟨?_, ?_, ?_, ?_⟩
  · intro st key env b hl ho hg
    cases b <;>
      rw [getConfiguration_redis_hit st key env _ hl ho hg (by decide)] <;> rfl
  · intro st key env q hl ho hg hdvd
    rw [getConfiguration_redis_hit st key env _ hl ho hg (numToString_ne_empty q hdvd)]
    show redisDecode (numToString q) = CValue.num q
    unfold redisDecode
    rw [jsonParse_numToString q hdvd]
    rfl
  · intro st key env raw dt v hl hr hor hd ho hsf
    rw [getConfiguration_eq_redisStep st key env hl,
      redisStep_eq_originStep st key env hr,
      originStep_ok st key env env.redisOpen raw dt v hor hd, ho, hsf]
    rfl
  · intro st key env hl ho hg
    rw [getConfiguration_redis_hit st key env _ hl ho hg (by decide)]
    constructor
    · show redisDecode "123" = CValue.num 123
      unfold redisDecode jsonParse jsonNumber
      simp +decide [parseNat]
    · simp

/-- Claim C10 witness: readback of the stringified boolean `true`, the
stringified number 30 (denominator 1 divides 10), and the stringified
string `"123"` (which comes back as the number 123). -/
theorem c10_remote_roundtrip_witness :
    (getConfiguration stEmpty "k"
      ⟨0, true, .ok (some (stringifyForRedis (.bool true))), false, .err⟩).value =
      CValue.bool true ∧
    (getConfiguration stEmpty "k"
      ⟨0, true, .ok (some (stringifyForRedis (.num 30))), false, .err⟩).value =
      CValue.num 30 ∧
    (getConfiguration stEmpty "k"
      ⟨0, true, .ok (some (stringifyForRedis (.str "123"))), false, .err⟩).value =
      CValue.num 123 :=
  ⟨c10_remote_roundtrip.1 stEmpty "k" _ true rfl rfl rfl,
    c10_remote_roundtrip.2.1 stEmpty "k" _ 30 rfl rfl rfl
      (by simp [Rat.den_ofNat]),
    (c10_remote_roundtrip.2.2.2 stEmpty "k" _ rfl rfl rfl).1⟩

end CPAEngine


